import Mathlib

/-!
# Listing draft editor (`client/src/pages/CreateListing.jsx`)

A shallow embedding of the event handlers of the `CreateListing` component:
`handleImageSubmit` (with `Promise.all` over the `storeImage` calls),
`handleRemoveImage`, `handleChange` and `handleSubmit`.

The component state is the tuple of its `useState` cells.  A handler is a function
from the state (and from what the environment answers: the settlements of the
uploads, the outcome of `fetch`) to the next state and the list of effects it issued.
-/

namespace CreateListing

/-! ## JavaScript values -/

/-- The value of a JavaScript number: a finite value, an infinity, or NaN.  Both zeros
are `fin 0`; only comparisons are taken on numbers here, and they do not tell the zeros
apart. -/
inductive JSNum where
  | nan
  | negInf
  | fin (q : ℚ)
  | posInf
  deriving DecidableEq, Repr

/-- The result of the abstract relational comparison `x < y`; `none` is the `undefined`
result, which arises when an operand is NaN. -/
def JSNum.lessThan : JSNum → JSNum → Option Bool
  | .nan, _ => none
  | _, .nan => none
  | .negInf, .negInf => some false
  | .negInf, _ => some true
  | _, .negInf => some false
  | .posInf, _ => some false
  | .fin _, .posInf => some true
  | .fin a, .fin b => some (decide (a < b))

/-- The operator `x < y` on numbers. -/
def JSNum.lt (x y : JSNum) : Bool :=
  match JSNum.lessThan x y with
  | some true => true
  | _ => false

/-- The operator `x >= y` on numbers: `x < y` is evaluated, and the result is `true`
exactly when that comparison is `false` (not when it is `undefined`). -/
def JSNum.ge (x y : JSNum) : Bool :=
  match JSNum.lessThan x y with
  | some false => true
  | _ => false

/-- A JavaScript value: the primitives, arrays and plain objects. -/
inductive JSVal where
  | undefined
  | null
  | bool (b : Bool)
  | num (n : JSNum)
  | str (s : String)
  | arr (xs : List JSVal)
  | obj (props : List (String × JSVal))

/-- The own properties of a plain object, in insertion order. -/
abbrev Obj := List (String × JSVal)

/-- Property read `o[k]` on a plain object: `undefined` when `k` is not an own property. -/
def Obj.get : Obj → String → JSVal
  | [], _ => .undefined
  | (a, b) :: o, k => if a = k then b else Obj.get o k

/-- The object `{ ...o, [k]: v }`: an existing property `k` takes the value `v` where it
stands, a new one is added after the properties of `o`. -/
def Obj.set : Obj → String → JSVal → Obj
  | [], k, v => [(k, v)]
  | (a, b) :: o, k, v => if a = k then (k, v) :: o else (a, b) :: Obj.set o k v

/-- The property names of a plain object. -/
def Obj.keys (o : Obj) : List String := o.map Prod.fst

/-- The services of the JavaScript runtime that the component relies on and that are
not part of the repository. -/
structure Runtime where
  /-- Conversion of a string to a number (`StringToNumber`, as applied by unary `+`). -/
  strToNum : String → JSNum
  /-- Conversion of a number to a string (`Number::toString`). -/
  numToStr : JSNum → String
  /-- The message of the `TypeError` thrown when property `k` of `null` (`true`) or of
  `undefined` (`false`) is read. -/
  nullReadMsg : Bool → String → String

/-- Truthiness of a value (`ToBoolean`). -/
def truthy : JSVal → Bool
  | .undefined => false
  | .null => false
  | .bool b => b
  | .num .nan => false
  | .num (.fin q) => decide (q ≠ 0)
  | .num _ => true
  | .str s => decide (s ≠ "")
  | .arr _ => true
  | .obj _ => true

mutual
/-- Conversion of a value to a string (`ToString`): an array is the join of its
elements with `,`, a plain object is `[object Object]`. -/
def toStr (rt : Runtime) : JSVal → String
  | .undefined => "undefined"
  | .null => "null"
  | .bool b => if b then "true" else "false"
  | .num n => rt.numToStr n
  | .str s => s
  | .arr xs => joinElems rt xs
  | .obj _ => "[object Object]"
/-- The join with `,` of the elements of an array (`Array.prototype.join`): `undefined`
and `null` elements contribute the empty string. -/
def joinElems (rt : Runtime) : List JSVal → String
  | [] => ""
  | [x] => elemStr rt x
  | x :: y :: rest => elemStr rt x ++ "," ++ joinElems rt (y :: rest)
/-- The string an array element contributes to the join. -/
def elemStr (rt : Runtime) : JSVal → String
  | .undefined => ""
  | .null => ""
  | .bool b => if b then "true" else "false"
  | .num n => rt.numToStr n
  | .str s => s
  | .arr xs => joinElems rt xs
  | .obj _ => "[object Object]"
end

/-- Conversion of a value to a number (`ToNumber`, the unary `+`): an array or an object
is converted to a string first. -/
def toNumber (rt : Runtime) : JSVal → JSNum
  | .undefined => .nan
  | .null => .fin 0
  | .bool b => if b then .fin 1 else .fin 0
  | .num n => n
  | .str s => rt.strToNum s
  | .arr xs => rt.strToNum (toStr rt (.arr xs))
  | .obj ps => rt.strToNum (toStr rt (.obj ps))

/-! ## A runtime instance

The handlers are stated for every `Runtime`.  To evaluate them on concrete drafts, the
instance below reads numeric literals and writes numbers with exact rational values,
that is, without the rounding to double precision of an actual engine. -/

/-- The white space and line terminators that `StringToNumber` strips at both ends. -/
def isStrWhiteSpace (c : Char) : Bool :=
  c.toNat = 0x09 || c.toNat = 0x0A || c.toNat = 0x0B || c.toNat = 0x0C || c.toNat = 0x0D ||
  c.toNat = 0x20 || c.toNat = 0xA0 || c.toNat = 0x1680 ||
  (0x2000 ≤ c.toNat && c.toNat ≤ 0x200A) ||
  c.toNat = 0x2028 || c.toNat = 0x2029 || c.toNat = 0x202F || c.toNat = 0x205F ||
  c.toNat = 0x3000 || c.toNat = 0xFEFF

/-- The value of a digit in the given base, `none` for any other character. -/
def digitValue (base : Nat) (c : Char) : Option Nat :=
  let d : Option Nat :=
    if 48 ≤ c.toNat ∧ c.toNat ≤ 57 then some (c.toNat - 48)
    else if 97 ≤ c.toNat ∧ c.toNat ≤ 102 then some (c.toNat - 87)
    else if 65 ≤ c.toNat ∧ c.toNat ≤ 70 then some (c.toNat - 55)
    else none
  match d with
  | some v => if v < base then some v else none
  | none => none

/-- The value of a non-empty sequence of digits in the given base. -/
def digitsValue (base : Nat) (cs : List Char) : Option Nat :=
  if cs = [] then none
  else cs.foldlM (fun acc c => (digitValue base c).map fun v => acc * base + v) 0

/-- The value of an exponent part after its `e`: an optional sign and decimal digits. -/
def exponentValue : List Char → Option Int
  | '+' :: ds => (digitsValue 10 ds).map Int.ofNat
  | '-' :: ds => (digitsValue 10 ds).map fun n => - Int.ofNat n
  | ds => (digitsValue 10 ds).map Int.ofNat

/-- The value of an unsigned mantissa: digits, with an optional `.` before, inside or
after them. -/
def mantissaValue (cs : List Char) : Option ℚ :=
  match cs.span (fun c => c != '.') with
  | (ip, []) => (digitsValue 10 ip).map fun n => (n : ℚ)
  | (ip, _ :: fp) =>
    if ip = [] ∧ fp = [] then none
    else
      match (if ip = [] then some 0 else digitsValue 10 ip),
            (if fp = [] then some 0 else digitsValue 10 fp) with
      | some i, some f => some ((i : ℚ) + (f : ℚ) / (10 : ℚ) ^ fp.length)
      | _, _ => none

/-- The value of an unsigned decimal literal: `Infinity`, or a mantissa with an optional
exponent part. -/
def unsignedDecimalValue (cs : List Char) : Option JSNum :=
  if cs = "Infinity".toList then some .posInf
  else
    match cs.span (fun c => c != 'e' && c != 'E') with
    | (m, []) => (mantissaValue m).map JSNum.fin
    | (m, _ :: ex) =>
      match mantissaValue m, exponentValue ex with
      | some q, some e => some (.fin (q * (10 : ℚ) ^ e))
      | _, _ => none

/-- The negation of a number. -/
def JSNum.neg : JSNum → JSNum
  | .nan => .nan
  | .negInf => .posInf
  | .fin q => .fin (-q)
  | .posInf => .negInf

/-- The value of a string numeric literal without surrounding white space: a binary,
octal or hexadecimal integer literal, or a decimal literal with an optional sign. -/
def literalValue : List Char → Option JSNum
  | '0' :: 'b' :: ds => (digitsValue 2 ds).map fun n => .fin n
  | '0' :: 'B' :: ds => (digitsValue 2 ds).map fun n => .fin n
  | '0' :: 'o' :: ds => (digitsValue 8 ds).map fun n => .fin n
  | '0' :: 'O' :: ds => (digitsValue 8 ds).map fun n => .fin n
  | '0' :: 'x' :: ds => (digitsValue 16 ds).map fun n => .fin n
  | '0' :: 'X' :: ds => (digitsValue 16 ds).map fun n => .fin n
  | '+' :: cs => unsignedDecimalValue cs
  | '-' :: cs => (unsignedDecimalValue cs).map JSNum.neg
  | cs => unsignedDecimalValue cs

/-- The conversion `StringToNumber` with exact values: white space is stripped, the
empty string is 0, a numeric literal is its value and any other string is NaN. -/
def stringToNumber (s : String) : JSNum :=
  let cs := ((s.toList.dropWhile isStrWhiteSpace).reverse.dropWhile isStrWhiteSpace).reverse
  if cs = [] then .fin 0
  else
    match literalValue cs with
    | some n => n
    | none => .nan

/-- The decimal digits of the fraction `r / d` (with `r < d`), at most `fuel` of them. -/
def fractionDigits : Nat → Nat → Nat → List Char
  | 0, _, _ => []
  | fuel + 1, r, d =>
    if r = 0 then [] else Nat.digitChar (r * 10 / d) :: fractionDigits fuel (r * 10 % d) d

/-- The decimal form of a number: `NaN`, `Infinity`, `-Infinity`, an integer in digits,
and any other value by its decimal expansion (in full when it has at most 1100 digits;
the exponent forms of `Number::toString` are not produced). -/
def numberToString : JSNum → String
  | .nan => "NaN"
  | .posInf => "Infinity"
  | .negInf => "-Infinity"
  | .fin q =>
    if q.den = 1 then toString q.num
    else
      (if q < 0 then "-" else "") ++ toString (q.num.natAbs / q.den) ++ "." ++
        String.mk (fractionDigits 1100 (q.num.natAbs % q.den) q.den)

/-- A runtime with exact numbers and the `TypeError` messages of V8. -/
def exactRuntime : Runtime :=
  { strToNum := stringToNumber,
    numToStr := numberToString,
    nullReadMsg := fun isNull k =>
      "Cannot read properties of " ++ (if isNull then "null" else "undefined") ++
        " (reading '" ++ k ++ "')" }

/-! ## Component state, environment and effects -/

/-- A file of the selection (`e.target.files`). -/
structure File where
  name : String
  deriving DecidableEq, Repr

/-- A thrown or rejected value: an `Error` object, of which the component reads
`message`. -/
structure JSError where
  message : String
  deriving DecidableEq, Repr

/-- The argument of `fetch`; `body` is the object handed to `JSON.stringify`. -/
structure Request where
  url : String
  method : String
  headers : List (String × String)
  body : Obj

/-- What a handler does to the outside, in the order in which it does it. -/
inductive Effect where
  | preventDefault
  | storeImage (file : File)
  | consoleError (err : JSError)
  | fetch (req : Request)
  | navigate (path : String)

/-- The `useState` cells of the component. -/
structure State where
  files : List File
  formData : Obj
  uploading : Bool
  loading : Bool
  error : String
  imageUploadError : String

/-- The acting user (`currentUser` of the session store). -/
structure User where
  _id : JSVal

/-- The initial value of `formData`. -/
def initialFormData : Obj :=
  [("imageUrls", .arr []),
   ("name", .str ""),
   ("description", .str ""),
   ("address", .str ""),
   ("type", .str "rent"),
   ("bedrooms", .num (.fin 1)),
   ("bathrooms", .num (.fin 1)),
   ("regularPrice", .num (.fin 50)),
   ("discountPrice", .num (.fin 0)),
   ("offer", .bool false),
   ("parking", .bool false),
   ("furnished", .bool false)]

/-- The state of the component when it mounts. -/
def initialState : State :=
  { files := [], formData := initialFormData, uploading := false, loading := false,
    error := "", imageUploadError := "" }

/-- The array held by `formData.imageUrls`; `none` when the property is not an array
(the handlers are modelled on drafts whose `imageUrls` is an array). -/
def imageUrls (formData : Obj) : Option (List JSVal) :=
  match formData.get "imageUrls" with
  | .arr xs => some xs
  | _ => none

/-- How a promise settles. -/
inductive Settlement (α : Type) where
  | fulfilled (value : α)
  | rejected (reason : JSError)

/-- The state of a promise when the environment has nothing more to deliver. -/
inductive Outcome (α : Type) where
  | pending
  | fulfilled (value : α)
  | rejected (reason : JSError)

/-- What the storage service reports for one upload task: the error callback, or the
completion callback followed by the settlement of `getDownloadURL`. -/
inductive UploadResult where
  | failed (error : JSError)
  | completed (downloadURL : Settlement String)

/-- The settlement of the promise returned by `storeImage(file)`: `reject(error)` from
the error callback, otherwise `getDownloadURL(...).then(resolve).catch(reject)`. -/
def storeImage : UploadResult → Settlement String
  | .failed error => .rejected error
  | .completed (.fulfilled url) => .fulfilled url
  | .completed (.rejected reason) => .rejected reason

/-- The loop of `Promise.all` once its `remaining` element promises are awaited:
`events` lists, in order of completion, the index of a promise and how it settles.
A fulfilment stores the value at the index of its promise and, when it is the last one
awaited, fulfils the result with the array of values; a rejection rejects the result. -/
def promiseAllFrom (values : List JSVal) (remaining : Nat) :
    List (Nat × Settlement String) → Outcome (List JSVal)
  | [] => .pending
  | (_, .rejected reason) :: _ => .rejected reason
  | (i, .fulfilled url) :: rest =>
      if remaining - 1 = 0 then .fulfilled (values.set i (.str url))
      else promiseAllFrom (values.set i (.str url)) (remaining - 1) rest

/-- The promise `Promise.all(ps)` for `n` promises `ps`. -/
def promiseAll (n : Nat) (events : List (Nat × Settlement String)) : Outcome (List JSVal) :=
  if n = 0 then .fulfilled [] else promiseAllFrom (List.replicate n .undefined) n events

/-! ## The handlers -/

/-- The updater `(prev) => ({ ...prev, imageUrls: [...prev.imageUrls, ...urls] })`. -/
def appendUrls (urls : List JSVal) (prev : Obj) : Option Obj :=
  match imageUrls prev with
  | some xs => some (prev.set "imageUrls" (.arr (xs ++ urls)))
  | none => none

/-- The handler `handleImageSubmit`, run to the point where it returns or where the
environment delivers nothing more; `uploads` lists the upload tasks in their order of
completion, each with the index of its file in the selection. -/
def handleImageSubmit (uploads : List (Nat × UploadResult)) (st : State) :
    Option (State × List Effect) :=
  if st.files.length = 0 then some (st, [])
  else
    match imageUrls st.formData with
    | none => none
    | some xs =>
      if xs.length + st.files.length > 6 then
        some ({ st with imageUploadError := "You can only upload up to 6 images." }, [])
      else
        let st1 := { st with uploading := true, imageUploadError := "" }
        let calls := st.files.map Effect.storeImage
        match promiseAll st.files.length (uploads.map fun u => (u.1, storeImage u.2)) with
        | .pending => some (st1, calls)
        | .fulfilled urls =>
          match appendUrls urls st1.formData with
          | some formData => some ({ st1 with formData := formData, uploading := false }, calls)
          | none => none
        | .rejected err =>
          some ({ st1 with imageUploadError := "Image upload failed (max 2 MB per image)",
                           uploading := false },
                calls ++ [Effect.consoleError err])

/-- The callback `(_, i) => i !== index` applied by `filter` to an array. -/
def filterIndex (index : Nat) (xs : List JSVal) : List JSVal :=
  (xs.enum.filter fun p => p.1 != index).map Prod.snd

/-- The handler `handleRemoveImage`. -/
def handleRemoveImage (index : Nat) (st : State) : Option State :=
  match imageUrls st.formData with
  | some xs => some { st with formData := st.formData.set "imageUrls" (.arr (filterIndex index xs)) }
  | none => none

/-- The target of a change event, `const { id, type, value, checked } = e.target`. -/
structure Target where
  id : String
  type : String
  value : String
  checked : Bool

/-- The handler `handleChange`. -/
def handleChange (target : Target) (st : State) : State :=
  if target.id = "sale" ∨ target.id = "rent" then
    { st with formData := st.formData.set "type" (.str target.id) }
  else if target.type = "checkbox" then
    { st with formData := st.formData.set target.id (.bool target.checked) }
  else
    { st with formData := st.formData.set target.id (.str target.value) }

/-- The settlement of `res.json()`. -/
inductive BodyOutcome where
  | rejected (reason : JSError)
  | parsed (data : JSVal)

/-- What the environment answers to `fetch`: nothing (`pending`: the request, or the
reading of its body, never completes), a rejection, or a response with its `ok` flag and
the settlement of `res.json()`. -/
inductive FetchOutcome where
  | pending
  | rejected (reason : JSError)
  | response (ok : Bool) (json : BodyOutcome)

/-- Property read `data[k]` on a response body, for the names the component reads
(`success`, `message`, `_id`), which no primitive, array or prototype defines: a
`TypeError` on `null` and `undefined`, the own property on a plain object, `undefined`
otherwise. -/
def readProp (rt : Runtime) (data : JSVal) (k : String) : Except JSError JSVal :=
  match data with
  | .null => .error ⟨rt.nullReadMsg true k⟩
  | .undefined => .error ⟨rt.nullReadMsg false k⟩
  | .obj props => .ok (Obj.get props k)
  | _ => .ok .undefined

/-- The comparison `v === false`. -/
def isFalse (v : JSVal) : Bool :=
  match v with
  | .bool false => true
  | _ => false

/-- The statements of the `try` block of `handleSubmit` after `res.json()` has
fulfilled with `data`: the thrown error, or the path passed to `navigate`. -/
def afterJson (rt : Runtime) (ok : Bool) (data : JSVal) : Except JSError String := do
  let failed ← if !ok then pure true else (do let s ← readProp rt data "success"; pure (isFalse s))
  if failed then
    let m ← readProp rt data "message"
    throw ⟨toStr rt (if truthy m then m else .str "Something went wrong")⟩
  let id ← readProp rt data "_id"
  pure ("/listing/" ++ toStr rt id)

/-- The `try` block of `handleSubmit` from the settlement of `fetch` on; `none` when
the handler never resumes. -/
def afterFetch (rt : Runtime) : FetchOutcome → Option (Except JSError String)
  | .pending => none
  | .rejected reason => some (.error reason)
  | .response _ (.rejected reason) => some (.error reason)
  | .response ok (.parsed data) => some (afterJson rt ok data)

/-- The argument of `fetch` in `handleSubmit`: a `POST` to `listing/create` under the
base URL, whose body is `{ ...formData, userRef: currentUser._id }`. -/
def createRequest (apiUrl : String) (currentUser : User) (formData : Obj) : Request :=
  { url := apiUrl ++ "listing/create",
    method := "POST",
    headers := [("Content-Type", "application/json")],
    body := formData.set "userRef" currentUser._id }

/-- The handler `handleSubmit`; `apiUrl` is `import.meta.env.VITE_API_URL` as it appears
in the template string, `resp` is what the environment answers to the request. -/
def handleSubmit (rt : Runtime) (apiUrl : String) (currentUser : User) (resp : FetchOutcome)
    (st : State) : Option (State × List Effect) :=
  match imageUrls st.formData with
  | none => none
  | some xs =>
    if xs.length = 0 then
      some ({ st with error := "You must upload at least one image" }, [Effect.preventDefault])
    else if truthy (st.formData.get "offer") &&
        JSNum.ge (toNumber rt (st.formData.get "discountPrice"))
                 (toNumber rt (st.formData.get "regularPrice")) then
      some ({ st with error := "Discount price must be less than regular price" },
            [Effect.preventDefault])
    else
      let st1 := { st with loading := true, error := "" }
      let req := createRequest apiUrl currentUser st.formData
      match afterFetch rt resp with
      | none => some (st1, [Effect.preventDefault, Effect.fetch req])
      | some (.ok path) =>
        some ({ st1 with loading := false },
              [Effect.preventDefault, Effect.fetch req, Effect.navigate path])
      | some (.error err) =>
        some ({ st1 with error := if err.message ≠ "" then err.message else "Submission failed",
                         loading := false },
              [Effect.preventDefault, Effect.fetch req, Effect.consoleError err])

/-! ## The editor as a transition system -/

/-- The events of the editor: the `onChange` of the file input (`setFiles(e.target.files)`),
a click on Upload, a click on Delete next to the image at `index`, a change of a control
bound to `handleChange`, and a submission of the form. -/
inductive Op where
  | selectFiles (files : List File)
  | imageSubmit (uploads : List (Nat × UploadResult))
  | removeImage (index : Nat)
  | change (target : Target)
  | submit (resp : FetchOutcome)

/-- The state after one event, its handler being run to its end before the next event. -/
def step (rt : Runtime) (apiUrl : String) (currentUser : User) (st : State) : Op → Option State
  | .selectFiles files => some { st with files := files }
  | .imageSubmit uploads => (handleImageSubmit uploads st).map Prod.fst
  | .removeImage index => handleRemoveImage index st
  | .change target => some (handleChange target st)
  | .submit resp => (handleSubmit rt apiUrl currentUser resp st).map Prod.fst

/-- The state after a sequence of events. -/
def run (rt : Runtime) (apiUrl : String) (currentUser : User) : State → List Op → Option State
  | st, [] => some st
  | st, op :: ops =>
    match step rt apiUrl currentUser st op with
    | some st' => run rt apiUrl currentUser st' ops
    | none => none

/-- The `id`s of the controls of the form whose `onChange` is `handleChange`. -/
def controlIds : List String :=
  ["name", "description", "address", "sale", "rent", "parking", "furnished", "offer",
   "bedrooms", "bathrooms", "regularPrice", "discountPrice"]

/-- An event that the form can raise: a change event comes from one of its controls. -/
def Op.fromForm : Op → Prop
  | .change target => target.id ∈ controlIds
  | _ => True

/-- The failures of a request named by the error contract of the submission: `fetch`
rejects, the response status is not ok, or the response body is an object whose `success`
is `false`. -/
def requestFailed : FetchOutcome → Prop
  | .rejected _ => True
  | .response false _ => True
  | .response true (.parsed (.obj props)) => isFalse (Obj.get props "success") = true
  | _ => False

/-! ## Observations on effects, and example states -/

/-- The requests issued, in order. -/
def requests : List Effect → List Request
  | [] => []
  | .fetch req :: rest => req :: requests rest
  | _ :: rest => requests rest

/-- The paths navigated to, in order. -/
def navigations : List Effect → List String
  | [] => []
  | .navigate path :: rest => path :: navigations rest
  | _ :: rest => navigations rest

/-- The state of a freshly mounted component in which `imageUrls` holds `urls` and the
file input holds `files`. -/
def stateWith (urls : List String) (files : List File) : State :=
  { initialState with
    files := files,
    formData := initialFormData.set "imageUrls" (.arr (urls.map JSVal.str)) }

/-- A signed-in user. -/
def exampleUser : User := { _id := .str "64b7f0c2a1" }

/-- A draft with one image in which the offer box was ticked, the discount price set to
150 and the regular price to 100, and the offer box then cleared. -/
def offerClearedDraft : State :=
  handleChange ⟨"offer", "checkbox", "on", false⟩
    (handleChange ⟨"regularPrice", "number", "100", false⟩
      (handleChange ⟨"discountPrice", "number", "150", false⟩
        (handleChange ⟨"offer", "checkbox", "on", true⟩ (stateWith ["a"] []))))

/-- The same draft before the offer box is cleared. -/
def offerAboveRegularDraft : State :=
  handleChange ⟨"regularPrice", "number", "100", false⟩
    (handleChange ⟨"discountPrice", "number", "150", false⟩
      (handleChange ⟨"offer", "checkbox", "on", true⟩ (stateWith ["a"] [])))

/-- A draft with one image in which the offer box is ticked, the discount price is 40
and the regular price is 100. -/
def offerBelowRegularDraft : State :=
  handleChange ⟨"regularPrice", "number", "100", false⟩
    (handleChange ⟨"discountPrice", "number", "40", false⟩
      (handleChange ⟨"offer", "checkbox", "on", true⟩ (stateWith ["a"] [])))

/-- A session of the editor: three files are selected and uploaded twice (the uploads
of the first batch completing in reverse order), a third upload is attempted, the first
image is deleted, the offer box is ticked, the discount price is typed and the form is
submitted. -/
def exampleSession : List Op :=
  [.selectFiles [⟨"f.png"⟩, ⟨"g.png"⟩, ⟨"h.png"⟩],
   .imageSubmit [(2, .completed (.fulfilled "w")), (1, .completed (.fulfilled "v")),
                 (0, .completed (.fulfilled "u"))],
   .imageSubmit [(0, .completed (.fulfilled "x")), (1, .completed (.fulfilled "y")),
                 (2, .completed (.fulfilled "z"))],
   .imageSubmit [(0, .completed (.fulfilled "p"))],
   .removeImage 0,
   .change ⟨"offer", "checkbox", "on", true⟩,
   .change ⟨"discountPrice", "number", "40", false⟩,
   .submit (.response true (.parsed (.obj [("_id", .str "abc123")])))]

/-! ## Lemmas on objects and arrays -/

theorem Obj.get_set (o : Obj) (k : String) (v : JSVal) (k' : String) :
    (o.set k v).get k' = if k' = k then v else o.get k' := by
  induction o with
  | nil =>
    by_cases hk : k' = k
    · simp [Obj.set, Obj.get, hk]
    · have : ¬ k = k' := fun e => hk e.symm
      simp [Obj.set, Obj.get, hk, this]
  | cons p o ih =>
    obtain ⟨a, b⟩ := p
    by_cases ha : a = k
    · by_cases hk : k' = k
      · simp [Obj.set, Obj.get, ha, hk]
      · have : ¬ k = k' := fun e => hk e.symm
        simp [Obj.set, Obj.get, ha, hk, this]
    · by_cases hk : k' = k
      · subst hk
        simp [Obj.set, Obj.get, ha, ih]
      · by_cases hb : a = k'
        · simp [Obj.set, Obj.get, ha, hk, hb]
        · simp [Obj.set, Obj.get, ha, hk, hb, ih]

theorem Obj.get_set_self (o : Obj) (k : String) (v : JSVal) : (o.set k v).get k = v := by
  rw [Obj.get_set, if_pos rfl]

theorem Obj.get_set_of_ne (o : Obj) (k : String) (v : JSVal) (k' : String) (h : k' ≠ k) :
    (o.set k v).get k' = o.get k' := by
  rw [Obj.get_set, if_neg h]

theorem Obj.mem_keys_set (o : Obj) (k : String) (v : JSVal) (k' : String) :
    k' ∈ (o.set k v).keys ↔ k' ∈ o.keys ∨ k' = k := by
  induction o with
  | nil => simp [Obj.set, Obj.keys]
  | cons p o ih =>
    obtain ⟨a, b⟩ := p
    by_cases ha : a = k
    · subst ha
      simp only [Obj.set, Obj.keys, if_pos, List.map_cons, List.mem_cons]
      tauto
    · simp only [Obj.keys] at ih
      simp only [Obj.set, Obj.keys, if_neg ha, List.map_cons, List.mem_cons, ih]
      tauto

theorem imageUrls_set_self (o : Obj) (xs : List JSVal) :
    imageUrls (o.set "imageUrls" (.arr xs)) = some xs := by
  simp [imageUrls, Obj.get_set_self]

theorem imageUrls_set_of_ne (o : Obj) (k : String) (v : JSVal) (h : k ≠ "imageUrls") :
    imageUrls (o.set k v) = imageUrls o := by
  simp [imageUrls, Obj.get_set_of_ne o k v "imageUrls" (fun e => h e.symm)]

theorem filter_enumFrom_of_lt (m : Nat) (xs : List JSVal) :
    ∀ n, m < n → ((xs.enumFrom n).filter fun p => p.1 != m).map Prod.snd = xs := by
  induction xs with
  | nil => intro n _; rfl
  | cons x xs ih =>
    intro n hn
    have hne : (n != m) = true := by simpa using Nat.ne_of_gt hn
    simp only [List.enumFrom_cons, List.filter_cons, hne, if_true, List.map_cons]
    rw [ih (n + 1) (Nat.lt_succ_of_lt hn)]

theorem filter_enumFrom_eq_eraseIdx (xs : List JSVal) :
    ∀ n i, ((xs.enumFrom n).filter fun p => p.1 != n + i).map Prod.snd = xs.eraseIdx i := by
  induction xs with
  | nil => intro n i; rfl
  | cons x xs ih =>
    intro n i
    cases i with
    | zero =>
      simp only [List.enumFrom_cons, List.filter_cons, Nat.add_zero, bne_self_eq_false,
        List.eraseIdx_cons_zero]
      exact filter_enumFrom_of_lt n xs (n + 1) (Nat.lt_succ_self n)
    | succ j =>
      have hne : (n != n + (j + 1)) = true := by
        simp only [bne_iff_ne, ne_eq]
        omega
      simp only [List.enumFrom_cons, List.filter_cons, hne, if_true, List.map_cons,
        List.eraseIdx_cons_succ]
      have h := ih (n + 1) j
      rw [show n + 1 + j = n + (j + 1) by omega] at h
      rw [h]

theorem filterIndex_eq_eraseIdx (index : Nat) (xs : List JSVal) :
    filterIndex index xs = xs.eraseIdx index := by
  have h := filter_enumFrom_eq_eraseIdx xs 0 index
  simpa [filterIndex, List.enum] using h

/-! ## `Promise.all` -/

theorem promiseAllFrom_rejected (events : List (Nat × Settlement String)) :
    ∀ (values : List JSVal) (remaining : Nat),
      (∃ i e, (i, Settlement.rejected e) ∈ events) → events.length ≤ remaining →
      ∃ e, promiseAllFrom values remaining events = .rejected e := by
  induction events with
  | nil =>
    rintro _ _ ⟨i, e, h⟩ _
    cases h
  | cons ev rest ih =>
    intro values remaining hrej hlen
    obtain ⟨i, s⟩ := ev
    cases s with
    | rejected e => exact ⟨e, rfl⟩
    | fulfilled url =>
      have hrest : ∃ i e, (i, Settlement.rejected e) ∈ rest := by
        obtain ⟨j, e, h⟩ := hrej
        rcases List.mem_cons.1 h with h | h
        · cases h
        · exact ⟨j, e, h⟩
      have hpos : 0 < rest.length := by
        obtain ⟨j, e, h⟩ := hrest
        exact List.length_pos_of_mem h
      simp only [List.length_cons] at hlen
      have hne : ¬ remaining - 1 = 0 := by omega
      simp only [promiseAllFrom, if_neg hne]
      exact ih _ _ hrest (by omega)

theorem promiseAllFrom_fulfilled (order : List (Nat × String)) :
    ∀ values : List JSVal, order ≠ [] →
      promiseAllFrom values order.length (order.map fun p => (p.1, Settlement.fulfilled p.2)) =
        .fulfilled (order.foldl (fun vs p => vs.set p.1 (.str p.2)) values) := by
  induction order with
  | nil => intro _ h; exact absurd rfl h
  | cons p rest ih =>
    intro values _
    by_cases hrest : rest = []
    · subst hrest
      simp [promiseAllFrom]
    · have hne : ¬ rest.length = 0 := fun h => hrest (List.length_eq_zero.1 h)
      simp only [List.map_cons, List.length_cons, promiseAllFrom, Nat.add_sub_cancel, if_neg hne,
        List.foldl_cons]
      exact ih _ hrest

theorem promiseAllFrom_length (events : List (Nat × Settlement String)) :
    ∀ (values : List JSVal) (remaining : Nat) (vs : List JSVal),
      promiseAllFrom values remaining events = .fulfilled vs → vs.length = values.length := by
  induction events with
  | nil => intro _ _ _ h; cases h
  | cons ev rest ih =>
    intro values remaining vs h
    obtain ⟨i, s⟩ := ev
    cases s with
    | rejected e => cases h
    | fulfilled url =>
      simp only [promiseAllFrom] at h
      split at h
      · cases h
        simp
      · have := ih _ _ _ h
        simpa using this

theorem promiseAll_length (n : Nat) (events : List (Nat × Settlement String)) (vs : List JSVal)
    (h : promiseAll n events = .fulfilled vs) : vs.length = n := by
  unfold promiseAll at h
  split at h
  · cases h
    simp [*]
  · simpa using promiseAllFrom_length _ _ _ _ h

theorem foldl_set_length (order : List (Nat × String)) :
    ∀ values : List JSVal,
      (order.foldl (fun vs p => vs.set p.1 (.str p.2)) values).length = values.length := by
  induction order with
  | nil => intro _; rfl
  | cons p rest ih => intro values; simp [List.foldl_cons, ih]

theorem foldl_set_getElem?_of_not_mem (j : Nat) (order : List (Nat × String)) :
    ∀ values : List JSVal, (∀ p ∈ order, p.1 ≠ j) →
      (order.foldl (fun vs p => vs.set p.1 (.str p.2)) values)[j]? = values[j]? := by
  induction order with
  | nil => intro _ _; rfl
  | cons p rest ih =>
    intro values h
    rw [List.foldl_cons, ih _ (fun q hq => h q (List.mem_cons_of_mem _ hq))]
    exact List.getElem?_set_ne (h p (List.mem_cons_self _ _))

theorem foldl_set_getElem?_of_mem (j : Nat) (v : String) (order : List (Nat × String)) :
    ∀ values : List JSVal, (j, v) ∈ order → (∀ p ∈ order, p.1 = j → p.2 = v) →
      j < values.length →
      (order.foldl (fun vs p => vs.set p.1 (.str p.2)) values)[j]? = some (.str v) := by
  induction order with
  | nil => intro _ h; cases h
  | cons p rest ih =>
    intro values hmem huniq hj
    rw [List.foldl_cons]
    by_cases hrest : (j, v) ∈ rest
    · exact ih _ hrest (fun q hq => huniq q (List.mem_cons_of_mem _ hq)) (by simpa using hj)
    · have hp : p = (j, v) := by
        rcases List.mem_cons.1 hmem with h | h
        · exact h.symm
        · exact absurd h hrest
      subst hp
      have hnot : ∀ q ∈ rest, q.1 ≠ j := by
        intro q hq hqj
        have := huniq q (List.mem_cons_of_mem _ hq) hqj
        apply hrest
        have hq' : q = (j, v) := Prod.ext hqj this
        rw [← hq']
        exact hq
      rw [foldl_set_getElem?_of_not_mem j rest _ hnot]
      exact List.getElem?_set_self (by simpa using hj)

theorem foldl_set_of_perm_enum (urls : List String) (order : List (Nat × String))
    (hperm : order.Perm urls.enum) :
    order.foldl (fun vs p => vs.set p.1 (.str p.2)) (List.replicate urls.length .undefined) =
      urls.map JSVal.str := by
  apply List.ext_getElem?
  intro j
  by_cases hj : j < urls.length
  · have hmem : (j, urls[j]) ∈ order := by
      rw [hperm.mem_iff, List.mk_mem_enum_iff_getElem?]
      simp [hj]
    have huniq : ∀ p ∈ order, p.1 = j → p.2 = urls[j] := by
      intro p hp hpj
      rw [hperm.mem_iff, List.mem_enum_iff_getElem?, hpj] at hp
      rw [List.getElem?_eq_getElem hj] at hp
      exact (Option.some.inj hp).symm
    rw [foldl_set_getElem?_of_mem j urls[j] order _ hmem huniq (by simpa using hj)]
    simp [hj]
  · have h1 : (List.map JSVal.str urls)[j]? = none := by
      simp only [List.getElem?_eq_none_iff, List.length_map]; omega
    rw [h1, List.getElem?_eq_none_iff, foldl_set_length]
    simp only [List.length_replicate]; omega

/-! ## Image upload -/

/-- C1: a non-empty selection that would bring the number of images above 6 is rejected
as a whole: `handleImageSubmit` calls `storeImage` for no file (it issues no effect at
all), leaves `formData` and every other cell unchanged, and sets `imageUploadError` to
"You can only upload up to 6 images.", whatever the uploads would have answered. -/
theorem handleImageSubmit_over_limit (uploads : List (Nat × UploadResult)) (st : State)
    (xs : List JSVal) (hfiles : st.files ≠ []) (hurls : imageUrls st.formData = some xs)
    (hover : xs.length + st.files.length > 6) :
    handleImageSubmit uploads st =
      some ({ st with imageUploadError := "You can only upload up to 6 images." }, []) := by
  have hlen : ¬ st.files.length = 0 := fun h => hfiles (List.length_eq_zero.1 h)
  simp only [handleImageSubmit, if_neg hlen, hurls, if_pos hover]

theorem handleImageSubmit_over_limit_witness :
    (stateWith ["a", "b", "c", "d", "e"] [⟨"f.png"⟩, ⟨"g.png"⟩]).files ≠ [] ∧
    imageUrls (stateWith ["a", "b", "c", "d", "e"] [⟨"f.png"⟩, ⟨"g.png"⟩]).formData =
      some [.str "a", .str "b", .str "c", .str "d", .str "e"] ∧
    handleImageSubmit [(0, .completed (.fulfilled "f")), (1, .completed (.fulfilled "g"))]
        (stateWith ["a", "b", "c", "d", "e"] [⟨"f.png"⟩, ⟨"g.png"⟩]) =
      some ({ stateWith ["a", "b", "c", "d", "e"] [⟨"f.png"⟩, ⟨"g.png"⟩] with
              imageUploadError := "You can only upload up to 6 images." }, []) :=
  ⟨by decide, rfl,
   handleImageSubmit_over_limit _ (stateWith ["a", "b", "c", "d", "e"] [⟨"f.png"⟩, ⟨"g.png"⟩])
     [.str "a", .str "b", .str "c", .str "d", .str "e"] (by decide) rfl (by decide)⟩

/-- C2: when a batch passes the pre-check and the upload of at least one of its files
fails (each upload task settling at most once), `handleImageSubmit` has called
`storeImage` for every file, `formData` is the one before the batch (no URL of the batch
is committed, also those of the uploads that succeeded), `imageUploadError` is
"Image upload failed (max 2 MB per image)" and `uploading` is released. -/
theorem handleImageSubmit_failed_upload (uploads : List (Nat × UploadResult)) (st : State)
    (xs : List JSVal) (hfiles : st.files ≠ []) (hurls : imageUrls st.formData = some xs)
    (hfit : xs.length + st.files.length ≤ 6)
    (honce : (uploads.map Prod.fst).Nodup) (hidx : ∀ u ∈ uploads, u.1 < st.files.length)
    (hfail : ∃ u ∈ uploads, ∃ e, storeImage u.2 = .rejected e) :
    ∃ err, handleImageSubmit uploads st =
      some ({ st with imageUploadError := "Image upload failed (max 2 MB per image)",
                      uploading := false },
            st.files.map Effect.storeImage ++ [Effect.consoleError err]) := by
  have hlen : ¬ st.files.length = 0 := fun h => hfiles (List.length_eq_zero.1 h)
  have hnot : ¬ xs.length + st.files.length > 6 := by omega
  have hcount : (uploads.map fun u => (u.1, storeImage u.2)).length ≤ st.files.length := by
    have hsub : uploads.map Prod.fst ⊆ List.range st.files.length := by
      intro i hi
      obtain ⟨u, hu, rfl⟩ := List.mem_map.1 hi
      exact List.mem_range.2 (hidx u hu)
    have := (List.subperm_of_subset honce hsub).length_le
    simpa using this
  have hrej : ∃ i e, (i, Settlement.rejected e) ∈ uploads.map fun u => (u.1, storeImage u.2) := by
    obtain ⟨u, hu, e, he⟩ := hfail
    refine ⟨u.1, e, List.mem_map.2 ⟨u, hu, ?_⟩⟩
    rw [he]
  obtain ⟨e, he⟩ := promiseAllFrom_rejected _ (List.replicate st.files.length .undefined)
    st.files.length hrej hcount
  refine ⟨e, ?_⟩
  simp only [handleImageSubmit, if_neg hlen, hurls, if_neg hnot, promiseAll, he]

theorem handleImageSubmit_failed_upload_witness :
    (stateWith ["a"] [⟨"f.png"⟩, ⟨"g.png"⟩]).files ≠ [] ∧
    (∃ u ∈ [(1, UploadResult.completed (.fulfilled "g")), (0, UploadResult.failed ⟨"too large"⟩)],
      ∃ e, storeImage u.2 = .rejected e) ∧
    ∃ err, handleImageSubmit
        [(1, .completed (.fulfilled "g")), (0, .failed ⟨"too large"⟩)]
        (stateWith ["a"] [⟨"f.png"⟩, ⟨"g.png"⟩]) =
      some ({ stateWith ["a"] [⟨"f.png"⟩, ⟨"g.png"⟩] with
              imageUploadError := "Image upload failed (max 2 MB per image)",
              uploading := false },
            (stateWith ["a"] [⟨"f.png"⟩, ⟨"g.png"⟩]).files.map Effect.storeImage ++
              [Effect.consoleError err]) :=
  ⟨by decide, ⟨_, List.mem_cons_of_mem _ (List.mem_singleton.2 rfl), ⟨"too large"⟩, rfl⟩,
   handleImageSubmit_failed_upload _ (stateWith ["a"] [⟨"f.png"⟩, ⟨"g.png"⟩]) [.str "a"]
     (by decide) rfl (by decide) (by decide) (by decide)
     ⟨_, List.mem_cons_of_mem _ (List.mem_singleton.2 rfl), ⟨"too large"⟩, rfl⟩⟩

/-- C3: when a batch of N files passes the pre-check and every upload succeeds, with
`urls` the resulting URLs in the order of the selection, then for every order of
completion of the uploads (`order` is any arrangement of the indexed URLs)
`handleImageSubmit` calls `storeImage` once per file and sets `imageUrls` to the previous
entries, at their positions, followed by `urls` in the order of the selection; nothing
else in `formData` changes. -/
theorem handleImageSubmit_success_order (st : State) (xs : List JSVal) (urls : List String)
    (order : List (Nat × String)) (hfiles : st.files ≠ [])
    (hurls : imageUrls st.formData = some xs) (hfit : xs.length + st.files.length ≤ 6)
    (hlen : urls.length = st.files.length) (horder : order.Perm urls.enum) :
    handleImageSubmit (order.map fun p => (p.1, UploadResult.completed (.fulfilled p.2))) st =
        some ({ st with
                formData := st.formData.set "imageUrls" (.arr (xs ++ urls.map JSVal.str)),
                uploading := false, imageUploadError := "" },
              st.files.map Effect.storeImage) ∧
      imageUrls (st.formData.set "imageUrls" (.arr (xs ++ urls.map JSVal.str))) =
        some (xs ++ urls.map JSVal.str) ∧
      (∀ i, i < xs.length → (xs ++ urls.map JSVal.str)[i]? = xs[i]?) ∧
      (∀ i, i < urls.length →
        (xs ++ urls.map JSVal.str)[xs.length + i]? = (urls[i]?).map JSVal.str) ∧
      ∀ k, k ≠ "imageUrls" →
        (st.formData.set "imageUrls" (.arr (xs ++ urls.map JSVal.str))).get k =
          st.formData.get k := by
  have hne : ¬ st.files.length = 0 := fun h => hfiles (List.length_eq_zero.1 h)
  have hnot : ¬ xs.length + st.files.length > 6 := by omega
  have horder_ne : order ≠ [] := by
    intro h
    have := horder.length_eq
    rw [h, List.enum_length, hlen] at this
    exact hne this.symm
  have horder_len : order.length = st.files.length := by
    rw [horder.length_eq, List.enum_length, hlen]
  have hevents :
      (List.map (fun u : Nat × UploadResult => (u.1, storeImage u.2))
        (order.map fun p => (p.1, UploadResult.completed (.fulfilled p.2)))) =
      order.map fun p => (p.1, Settlement.fulfilled p.2) := by
    rw [List.map_map]
    rfl
  have hall : promiseAll st.files.length (order.map fun p => (p.1, Settlement.fulfilled p.2)) =
      .fulfilled (urls.map JSVal.str) := by
    have h := promiseAllFrom_fulfilled order (List.replicate st.files.length .undefined) horder_ne
    rw [horder_len] at h
    rw [promiseAll, if_neg hne, h, ← hlen, foldl_set_of_perm_enum urls order horder]
  refine ⟨?_, imageUrls_set_self _ _, ?_, ?_, ?_⟩
  · simp only [handleImageSubmit, if_neg hne, hurls, if_neg hnot, hevents, hall, appendUrls]
  · intro i hi
    exact List.getElem?_append_left hi
  · intro i _
    rw [List.getElem?_append_right (Nat.le_add_right _ _), Nat.add_sub_cancel_left,
      List.getElem?_map]
  · intro k hk
    exact Obj.get_set_of_ne _ _ _ _ hk

theorem handleImageSubmit_success_order_witness :
    [(2, "w"), (0, "u"), (1, "v")].Perm ["u", "v", "w"].enum ∧
    handleImageSubmit
        [(2, .completed (.fulfilled "w")), (0, .completed (.fulfilled "u")),
         (1, .completed (.fulfilled "v"))]
        (stateWith ["a"] [⟨"f.png"⟩, ⟨"g.png"⟩, ⟨"h.png"⟩]) =
      some ({ stateWith ["a"] [⟨"f.png"⟩, ⟨"g.png"⟩, ⟨"h.png"⟩] with
              formData := (stateWith ["a"] [⟨"f.png"⟩, ⟨"g.png"⟩, ⟨"h.png"⟩]).formData.set
                "imageUrls" (.arr [.str "a", .str "u", .str "v", .str "w"]),
              uploading := false, imageUploadError := "" },
            [Effect.storeImage ⟨"f.png"⟩, Effect.storeImage ⟨"g.png"⟩,
             Effect.storeImage ⟨"h.png"⟩]) :=
  ⟨by decide,
   (handleImageSubmit_success_order (stateWith ["a"] [⟨"f.png"⟩, ⟨"g.png"⟩, ⟨"h.png"⟩])
     [.str "a"] ["u", "v", "w"] [(2, "w"), (0, "u"), (1, "v")]
     (by decide) rfl (by decide) rfl (by decide)).1⟩

/-! ## Image removal and field edits -/

/-- C9: for an index `i` inside `imageUrls`, `handleRemoveImage i` yields the list with
exactly the entry at position `i` removed: the length is one less, the entries before `i`
are unchanged, each entry after `i` moves one position down (the entries are told apart
by position, not by URL), and every other property of `formData` and every other cell of
the state is unchanged. -/
theorem handleRemoveImage_removes_index (i : Nat) (st : State) (xs : List JSVal)
    (hurls : imageUrls st.formData = some xs) (hi : i < xs.length) :
    ∃ ys, handleRemoveImage i st =
        some { st with formData := st.formData.set "imageUrls" (.arr ys) } ∧
      imageUrls (st.formData.set "imageUrls" (.arr ys)) = some ys ∧
      ys = xs.take i ++ xs.drop (i + 1) ∧
      ys.length + 1 = xs.length ∧
      (∀ j, j < i → ys[j]? = xs[j]?) ∧
      (∀ j, i ≤ j → ys[j]? = xs[j + 1]?) ∧
      ∀ k, k ≠ "imageUrls" → (st.formData.set "imageUrls" (.arr ys)).get k = st.formData.get k := by
  refine ⟨xs.eraseIdx i, ?_, imageUrls_set_self _ _, ?_, ?_, ?_, ?_, ?_⟩
  · simp only [handleRemoveImage, hurls, filterIndex_eq_eraseIdx]
  · exact List.eraseIdx_eq_take_drop_succ xs i
  · rw [List.length_eraseIdx, if_pos hi]
    omega
  · intro j hj
    exact List.getElem?_eraseIdx_of_lt xs i j hj
  · intro j hj
    exact List.getElem?_eraseIdx_of_ge xs i j hj
  · intro k hk
    exact Obj.get_set_of_ne _ _ _ _ hk

theorem handleRemoveImage_removes_index_witness :
    imageUrls (stateWith ["a", "b", "a", "c"] []).formData =
      some [.str "a", .str "b", .str "a", .str "c"] ∧
    ∃ ys, handleRemoveImage 2 (stateWith ["a", "b", "a", "c"] []) =
        some { stateWith ["a", "b", "a", "c"] [] with
               formData := (stateWith ["a", "b", "a", "c"] []).formData.set "imageUrls" (.arr ys) } ∧
      ys = [.str "a", .str "b", .str "c"] :=
  ⟨rfl,
   (handleRemoveImage_removes_index 2 (stateWith ["a", "b", "a", "c"] [])
      [.str "a", .str "b", .str "a", .str "c"] rfl (by decide)).elim
     fun ys h => ⟨ys, h.1, h.2.2.1⟩⟩

/-- C10: `handleChange` is defined on every change event (it validates nothing and
rejects no value) and writes exactly one property of `formData`: `type`, set to the `id`
of the control, when `id` is `sale` or `rent`, whatever `checked` is (so that `type` is
then `sale` or `rent`); otherwise the property `id`, set to `checked` for a checkbox and
to `value` for any other control.  Every other property keeps its value, no property
other than the written one is added, and the other cells of the state are unchanged. -/
theorem handleChange_writes_one_field (target : Target) (st : State) :
    (target.id = "sale" ∨ target.id = "rent" →
      (handleChange target st).formData.get "type" = .str target.id ∧
      ((handleChange target st).formData.get "type" = .str "sale" ∨
        (handleChange target st).formData.get "type" = .str "rent") ∧
      (∀ k, k ≠ "type" → (handleChange target st).formData.get k = st.formData.get k) ∧
      ∀ k, k ∈ (handleChange target st).formData.keys ↔ k ∈ st.formData.keys ∨ k = "type") ∧
    (¬ (target.id = "sale" ∨ target.id = "rent") → target.type = "checkbox" →
      (handleChange target st).formData.get target.id = .bool target.checked ∧
      (∀ k, k ≠ target.id → (handleChange target st).formData.get k = st.formData.get k) ∧
      ∀ k, k ∈ (handleChange target st).formData.keys ↔ k ∈ st.formData.keys ∨ k = target.id) ∧
    (¬ (target.id = "sale" ∨ target.id = "rent") → target.type ≠ "checkbox" →
      (handleChange target st).formData.get target.id = .str target.value ∧
      (∀ k, k ≠ target.id → (handleChange target st).formData.get k = st.formData.get k) ∧
      ∀ k, k ∈ (handleChange target st).formData.keys ↔ k ∈ st.formData.keys ∨ k = target.id) ∧
    handleChange target st = { st with formData := (handleChange target st).formData } := by
  refine ⟨?_, ?_, ?_, ?_⟩
  · intro h
    have hform : (handleChange target st).formData = st.formData.set "type" (.str target.id) := by
      simp only [handleChange, if_pos h]
    rw [hform]
    refine ⟨Obj.get_set_self _ _ _, ?_, fun k hk => Obj.get_set_of_ne _ _ _ _ hk,
      fun k => Obj.mem_keys_set _ _ _ _⟩
    rw [Obj.get_set_self]
    rcases h with h | h
    · exact Or.inl (by rw [h])
    · exact Or.inr (by rw [h])
  · intro h hc
    have hform : (handleChange target st).formData =
        st.formData.set target.id (.bool target.checked) := by
      simp only [handleChange, if_neg h, if_pos hc]
    rw [hform]
    exact ⟨Obj.get_set_self _ _ _, fun k hk => Obj.get_set_of_ne _ _ _ _ hk,
      fun k => Obj.mem_keys_set _ _ _ _⟩
  · intro h hc
    have hform : (handleChange target st).formData =
        st.formData.set target.id (.str target.value) := by
      simp only [handleChange, if_neg h, if_neg hc]
    rw [hform]
    exact ⟨Obj.get_set_self _ _ _, fun k hk => Obj.get_set_of_ne _ _ _ _ hk,
      fun k => Obj.mem_keys_set _ _ _ _⟩
  · unfold handleChange
    split_ifs <;> rfl

theorem handleChange_writes_one_field_witness :
    (handleChange ⟨"rent", "checkbox", "on", false⟩ initialState).formData.get "type" =
        .str "rent" ∧
      (handleChange ⟨"offer", "checkbox", "on", true⟩ initialState).formData.get "offer" =
        .bool true ∧
      (handleChange ⟨"regularPrice", "number", "100", false⟩ initialState).formData.get
        "regularPrice" = .str "100" :=
  ⟨((handleChange_writes_one_field ⟨"rent", "checkbox", "on", false⟩ initialState).1
      (Or.inr rfl)).1,
   ((handleChange_writes_one_field ⟨"offer", "checkbox", "on", true⟩ initialState).2.1
      (by decide) rfl).1,
   ((handleChange_writes_one_field ⟨"regularPrice", "number", "100", false⟩
      initialState).2.2.1 (by decide) (by decide)).1⟩

/-! ## Submission -/

theorem JSNum.ge_eq_false_of_lt (x y : JSNum) (h : JSNum.lt x y = true) :
    JSNum.ge x y = false := by
  unfold JSNum.lt at h
  unfold JSNum.ge
  split at h
  · rename_i heq
    rw [heq]
  · cases h

theorem JSNum.lt_of_ge_eq_false (x y : JSNum) (hx : x ≠ .nan) (hy : y ≠ .nan)
    (h : JSNum.ge x y = false) : JSNum.lt x y = true := by
  cases x with
  | nan => exact absurd rfl hx
  | negInf => cases y <;> simp_all [JSNum.ge, JSNum.lt, JSNum.lessThan]
  | posInf => cases y <;> simp_all [JSNum.ge, JSNum.lt, JSNum.lessThan]
  | fin a =>
    cases y with
    | nan => exact absurd rfl hy
    | negInf => simp [JSNum.ge, JSNum.lessThan] at h
    | posInf => simp [JSNum.lt, JSNum.lessThan]
    | fin b =>
      by_cases hab : a < b
      · simp [JSNum.lt, JSNum.lessThan, hab]
      · simp [JSNum.ge, JSNum.lessThan, hab] at h

theorem handleSubmit_of_valid (rt : Runtime) (apiUrl : String) (currentUser : User)
    (resp : FetchOutcome) (st : State) (xs : List JSVal)
    (hurls : imageUrls st.formData = some xs) (hne : xs ≠ [])
    (hrule : (truthy (st.formData.get "offer") &&
      JSNum.ge (toNumber rt (st.formData.get "discountPrice"))
        (toNumber rt (st.formData.get "regularPrice"))) = false) :
    handleSubmit rt apiUrl currentUser resp st =
      match afterFetch rt resp with
      | none =>
        some ({ st with loading := true, error := "" },
              [Effect.preventDefault, Effect.fetch (createRequest apiUrl currentUser st.formData)])
      | some (.ok path) =>
        some ({ st with loading := false, error := "" },
              [Effect.preventDefault, Effect.fetch (createRequest apiUrl currentUser st.formData),
               Effect.navigate path])
      | some (.error err) =>
        some ({ st with error := if err.message ≠ "" then err.message else "Submission failed",
                        loading := false },
              [Effect.preventDefault, Effect.fetch (createRequest apiUrl currentUser st.formData),
               Effect.consoleError err]) := by
  have hlen : ¬ xs.length = 0 := fun h => hne (List.length_eq_zero.1 h)
  simp only [handleSubmit, hurls, if_neg hlen, hrule]
  cases afterFetch rt resp with
  | none => simp
  | some r => cases r <;> simp

theorem afterFetch_of_failed (rt : Runtime) (resp : FetchOutcome) (h : requestFailed resp) :
    ∃ err, afterFetch rt resp = some (.error err) := by
  cases resp with
  | pending => cases h
  | rejected e => exact ⟨e, rfl⟩
  | response ok json =>
    cases json with
    | rejected e => exact ⟨e, rfl⟩
    | parsed data =>
      cases ok with
      | false =>
        cases data <;> simp [afterFetch, afterJson, readProp, bind, Except.bind, pure,
          Except.pure, throw, throwThe, MonadExceptOf.throw]
      | true =>
        cases data with
        | obj props =>
          simp only [requestFailed] at h
          simp [afterFetch, afterJson, readProp, bind, Except.bind, pure,
            Except.pure, throw, throwThe, MonadExceptOf.throw, h]
        | _ => simp [requestFailed] at h

theorem afterFetch_message (rt : Runtime) (ok : Bool) (props : Obj)
    (h : requestFailed (.response ok (.parsed (.obj props)))) :
    afterFetch rt (.response ok (.parsed (.obj props))) =
      some (.error ⟨toStr rt (if truthy (Obj.get props "message") then Obj.get props "message"
        else .str "Something went wrong")⟩) := by
  cases ok with
  | false =>
    simp [afterFetch, afterJson, readProp, bind, Except.bind, pure,
      Except.pure, throw, throwThe, MonadExceptOf.throw]
  | true =>
    simp only [requestFailed] at h
    simp [afterFetch, afterJson, readProp, bind, Except.bind, pure,
      Except.pure, throw, throwThe, MonadExceptOf.throw, h]

/-- C5: with `imageUrls` empty, `handleSubmit` sets `error` to
"You must upload at least one image" and returns: it issues no request, does not
navigate, and leaves `loading` and every other cell as they are.  The check comes first:
the result is the same whatever `offer`, `discountPrice` and `regularPrice` hold, and
whatever the environment would have answered. -/
theorem handleSubmit_no_image (rt : Runtime) (apiUrl : String) (currentUser : User)
    (resp : FetchOutcome) (st : State) (hurls : imageUrls st.formData = some []) :
    handleSubmit rt apiUrl currentUser resp st =
        some ({ st with error := "You must upload at least one image" },
              [Effect.preventDefault]) ∧
      requests [Effect.preventDefault] = [] ∧ navigations [Effect.preventDefault] = [] := by
  refine ⟨?_, rfl, rfl⟩
  simp only [handleSubmit, hurls, List.length_nil, if_true]

theorem handleSubmit_no_image_witness :
    imageUrls (handleChange ⟨"regularPrice", "number", "100", false⟩
      (handleChange ⟨"discountPrice", "number", "150", false⟩
        (handleChange ⟨"offer", "checkbox", "on", true⟩ initialState))).formData = some [] ∧
    (handleSubmit exactRuntime "/api/" exampleUser .pending
      (handleChange ⟨"regularPrice", "number", "100", false⟩
        (handleChange ⟨"discountPrice", "number", "150", false⟩
          (handleChange ⟨"offer", "checkbox", "on", true⟩ initialState)))).map
        (fun r => r.1.error) = some "You must upload at least one image" :=
  ⟨rfl, by
    rw [(handleSubmit_no_image exactRuntime "/api/" exampleUser .pending
      (handleChange ⟨"regularPrice", "number", "100", false⟩
        (handleChange ⟨"discountPrice", "number", "150", false⟩
          (handleChange ⟨"offer", "checkbox", "on", true⟩ initialState))) rfl).1]
    rfl⟩

/-- C6: for a draft with at least one image, `handleSubmit` stops with error
"Discount price must be less than regular price" and no request exactly when `offer` is
true and the numeric value of `discountPrice` is `>=` that of `regularPrice`; a draft
with `offer` false is never blocked by the rule and issues its request, whatever
`discountPrice` it holds; and a draft with `offer` true that issues a request has
`discountPrice < regularPrice`.  The numeric values are those of `+discountPrice` and
`+regularPrice`; the last part is for prices that have one (the conversion is not NaN),
which is what the number controls of the form deliver: the empty string or a numeric
literal. -/
theorem handleSubmit_discount_rule (rt : Runtime) (apiUrl : String) (currentUser : User)
    (resp : FetchOutcome) (st : State) (xs : List JSVal)
    (hurls : imageUrls st.formData = some xs) (hne : xs ≠ []) :
    (handleSubmit rt apiUrl currentUser resp st =
        some ({ st with error := "Discount price must be less than regular price" },
              [Effect.preventDefault]) ↔
      truthy (st.formData.get "offer") = true ∧
        JSNum.ge (toNumber rt (st.formData.get "discountPrice"))
          (toNumber rt (st.formData.get "regularPrice")) = true) ∧
    (st.formData.get "offer" = .bool false →
      ∃ st' fx, handleSubmit rt apiUrl currentUser resp st = some (st', fx) ∧
        requests fx = [createRequest apiUrl currentUser st.formData]) ∧
    (toNumber rt (st.formData.get "discountPrice") ≠ .nan →
      toNumber rt (st.formData.get "regularPrice") ≠ .nan →
      truthy (st.formData.get "offer") = true →
      (∃ st' fx, handleSubmit rt apiUrl currentUser resp st = some (st', fx) ∧
        requests fx ≠ []) →
      JSNum.lt (toNumber rt (st.formData.get "discountPrice"))
        (toNumber rt (st.formData.get "regularPrice")) = true) := by
  have hlen : ¬ xs.length = 0 := fun h => hne (List.length_eq_zero.1 h)
  have hblocked : (truthy (st.formData.get "offer") &&
      JSNum.ge (toNumber rt (st.formData.get "discountPrice"))
        (toNumber rt (st.formData.get "regularPrice"))) = true →
      handleSubmit rt apiUrl currentUser resp st =
        some ({ st with error := "Discount price must be less than regular price" },
              [Effect.preventDefault]) := by
    intro h
    simp only [handleSubmit, hurls, if_neg hlen, h, if_true]
  have hopen : (truthy (st.formData.get "offer") &&
      JSNum.ge (toNumber rt (st.formData.get "discountPrice"))
        (toNumber rt (st.formData.get "regularPrice"))) = false →
      ∃ st' rest, handleSubmit rt apiUrl currentUser resp st =
        some (st', Effect.preventDefault ::
          Effect.fetch (createRequest apiUrl currentUser st.formData) :: rest) ∧
        requests rest = [] := by
    intro h
    rw [handleSubmit_of_valid rt apiUrl currentUser resp st xs hurls hne h]
    cases afterFetch rt resp with
    | none => exact ⟨_, [], rfl, rfl⟩
    | some r =>
      cases r with
      | ok path => exact ⟨_, [Effect.navigate path], rfl, rfl⟩
      | error err => exact ⟨_, [Effect.consoleError err], rfl, rfl⟩
  refine ⟨⟨?_, ?_⟩, ?_, ?_⟩
  · intro h
    by_cases hrule : (truthy (st.formData.get "offer") &&
        JSNum.ge (toNumber rt (st.formData.get "discountPrice"))
          (toNumber rt (st.formData.get "regularPrice"))) = true
    · simpa using hrule
    · obtain ⟨st', rest, heq, _⟩ := hopen (by simpa using hrule)
      rw [heq] at h
      simp at h
  · rintro ⟨h1, h2⟩
    exact hblocked (by simp [h1, h2])
  · intro hoff
    obtain ⟨st', rest, heq, hrest⟩ := hopen (by simp [hoff, truthy])
    exact ⟨st', _, heq, by simp [requests, hrest]⟩
  · intro hd hr hoff ⟨st', fx, heq, hreq⟩
    apply JSNum.lt_of_ge_eq_false _ _ hd hr
    by_contra hge
    have hge' : JSNum.ge (toNumber rt (st.formData.get "discountPrice"))
        (toNumber rt (st.formData.get "regularPrice")) = true := by simpa using hge
    rw [hblocked (by simp [hoff, hge'])] at heq
    have hfx : fx = [Effect.preventDefault] := by
      have := Option.some.inj heq
      exact (congrArg Prod.snd this).symm
    exact hreq (by rw [hfx]; rfl)

theorem handleSubmit_discount_rule_witness :
    imageUrls offerAboveRegularDraft.formData = some [.str "a"] ∧
    offerAboveRegularDraft.formData.get "offer" = .bool true ∧
    offerAboveRegularDraft.formData.get "discountPrice" = .str "150" ∧
    offerAboveRegularDraft.formData.get "regularPrice" = .str "100" ∧
    handleSubmit exactRuntime "/api/" exampleUser .pending offerAboveRegularDraft =
      some ({ offerAboveRegularDraft with
              error := "Discount price must be less than regular price" },
            [Effect.preventDefault]) ∧
    offerClearedDraft.formData.get "offer" = .bool false ∧
    offerClearedDraft.formData.get "discountPrice" = .str "150" ∧
    (∃ st' fx, handleSubmit exactRuntime "/api/" exampleUser .pending offerClearedDraft =
        some (st', fx) ∧
      requests fx = [createRequest "/api/" exampleUser offerClearedDraft.formData]) ∧
    offerBelowRegularDraft.formData.get "offer" = .bool true ∧
    JSNum.lt (toNumber exactRuntime (offerBelowRegularDraft.formData.get "discountPrice"))
      (toNumber exactRuntime (offerBelowRegularDraft.formData.get "regularPrice")) = true :=
  ⟨rfl, rfl, rfl, rfl,
   (handleSubmit_discount_rule exactRuntime "/api/" exampleUser .pending
     offerAboveRegularDraft [.str "a"] rfl (by simp)).1.2 ⟨rfl, by decide⟩,
   rfl, rfl,
   (handleSubmit_discount_rule exactRuntime "/api/" exampleUser .pending offerClearedDraft
     [.str "a"] rfl (by simp)).2.1 rfl,
   rfl,
   (handleSubmit_discount_rule exactRuntime "/api/" exampleUser .pending
     offerBelowRegularDraft [.str "a"] rfl (by simp)).2.2 (by decide) (by decide) rfl
     ⟨_, _, rfl, List.cons_ne_nil _ _⟩⟩

/-- C7: for a draft with 1 to 6 images which, when `offer` is true, has
`discountPrice < regularPrice`, `handleSubmit` issues exactly one request, whatever the
environment answers: a `POST` to `listing/create` under the base URL, whose body holds
for every property of the draft the value the draft holds at submission, holds `userRef`
equal to the `_id` of the acting user, and holds no other property. -/
theorem handleSubmit_issues_one_request (rt : Runtime) (apiUrl : String) (currentUser : User)
    (resp : FetchOutcome) (st : State) (xs : List JSVal)
    (hurls : imageUrls st.formData = some xs) (hmin : 1 ≤ xs.length) (_hmax : xs.length ≤ 6)
    (hoffer : truthy (st.formData.get "offer") = true →
      JSNum.lt (toNumber rt (st.formData.get "discountPrice"))
        (toNumber rt (st.formData.get "regularPrice")) = true) :
    ∃ st' fx req, handleSubmit rt apiUrl currentUser resp st = some (st', fx) ∧
      requests fx = [req] ∧
      req.url = apiUrl ++ "listing/create" ∧ req.method = "POST" ∧
      req.body.get "userRef" = currentUser._id ∧
      (∀ k, k ≠ "userRef" → req.body.get k = st.formData.get k) ∧
      (∀ k, k ∈ req.body.keys ↔ k ∈ st.formData.keys ∨ k = "userRef") := by
  have hne : xs ≠ [] := by
    intro h
    rw [h] at hmin
    exact absurd hmin (by decide)
  have hrule : (truthy (st.formData.get "offer") &&
      JSNum.ge (toNumber rt (st.formData.get "discountPrice"))
        (toNumber rt (st.formData.get "regularPrice"))) = false := by
    by_cases hoff : truthy (st.formData.get "offer") = true
    · rw [JSNum.ge_eq_false_of_lt _ _ (hoffer hoff)]
      simp
    · simp [hoff]
  have hbody : ∀ st' fx, handleSubmit rt apiUrl currentUser resp st = some (st', fx) →
      requests fx = [createRequest apiUrl currentUser st.formData] →
      ∃ st' fx req, handleSubmit rt apiUrl currentUser resp st = some (st', fx) ∧
        requests fx = [req] ∧
        req.url = apiUrl ++ "listing/create" ∧ req.method = "POST" ∧
        req.body.get "userRef" = currentUser._id ∧
        (∀ k, k ≠ "userRef" → req.body.get k = st.formData.get k) ∧
        (∀ k, k ∈ req.body.keys ↔ k ∈ st.formData.keys ∨ k = "userRef") := by
    intro st' fx heq hfx
    exact ⟨st', fx, _, heq, hfx, rfl, rfl, Obj.get_set_self _ _ _,
      fun k hk => Obj.get_set_of_ne _ _ _ _ hk, fun k => Obj.mem_keys_set _ _ _ _⟩
  have hsub := handleSubmit_of_valid rt apiUrl currentUser resp st xs hurls hne hrule
  cases hres : afterFetch rt resp with
  | none =>
    rw [hres] at hsub
    exact hbody _ _ hsub rfl
  | some r =>
    rw [hres] at hsub
    cases r with
    | ok path => exact hbody _ _ hsub rfl
    | error err => exact hbody _ _ hsub rfl

theorem handleSubmit_issues_one_request_witness :
    imageUrls (stateWith ["a", "b"] []).formData = some [.str "a", .str "b"] ∧
    ∃ st' fx req,
      handleSubmit exactRuntime "/api/" exampleUser
          (.response true (.parsed (.obj [("_id", .str "abc123")])))
          (stateWith ["a", "b"] []) = some (st', fx) ∧
        requests fx = [req] ∧ req.body.get "userRef" = .str "64b7f0c2a1" ∧
        req.body.get "name" = .str "" :=
  ⟨rfl,
   (handleSubmit_issues_one_request exactRuntime "/api/" exampleUser
      (.response true (.parsed (.obj [("_id", .str "abc123")])))
      (stateWith ["a", "b"] []) [.str "a", .str "b"] rfl (by decide) (by decide)
      (fun h => absurd h (by decide))).elim
     fun st' h => h.elim fun fx h => h.elim fun req h =>
       ⟨st', fx, req, h.1, h.2.1, h.2.2.2.2.1, h.2.2.2.2.2.1 "name" (by decide)⟩⟩

/-- C8, as stated, fails on a failure response whose body is not JSON: the status is not
ok and the body carries no message, yet `error` is the message of the error with which
`res.json()` rejects, not "Something went wrong". -/
theorem handleSubmit_request_failure_counterexample :
    requestFailed (.response false (.rejected ⟨"Unexpected token < in JSON at position 0"⟩)) ∧
    (handleSubmit exactRuntime "/api/" exampleUser
        (.response false (.rejected ⟨"Unexpected token < in JSON at position 0"⟩))
        (stateWith ["a"] [])).map (fun r => r.1.error) =
      some "Unexpected token < in JSON at position 0" ∧
    "Unexpected token < in JSON at position 0" ≠ "Something went wrong" ∧
    "Unexpected token < in JSON at position 0" ≠ "Submission failed" :=
  ⟨trivial, rfl, by decide, by decide⟩

/-- C8, amended: for a draft that passes validation and whose request fails (`fetch`
rejects, the status is not ok, or the body has `success === false`), `handleSubmit` ends
with `loading` false, `formData` and the cells other than `error` as before, no
navigation, and a non-empty `error`: when the body is a parsed object, its `message` if
that is a non-empty string and "Something went wrong" if `message` is absent or empty;
when `fetch` or `res.json()` rejects, the message of the rejection, or
"Submission failed" if that message is empty. -/
theorem handleSubmit_request_failure (rt : Runtime) (apiUrl : String) (currentUser : User)
    (resp : FetchOutcome) (st : State) (xs : List JSVal)
    (hurls : imageUrls st.formData = some xs) (hne : xs ≠ [])
    (hrule : (truthy (st.formData.get "offer") &&
      JSNum.ge (toNumber rt (st.formData.get "discountPrice"))
        (toNumber rt (st.formData.get "regularPrice"))) = false)
    (hfail : requestFailed resp) :
    ∃ st' fx, handleSubmit rt apiUrl currentUser resp st = some (st', fx) ∧
      st' = { st with loading := false, error := st'.error } ∧
      st'.loading = false ∧ st'.formData = st.formData ∧
      navigations fx = [] ∧ st'.error ≠ "" ∧
      (∀ ok props s, resp = .response ok (.parsed (.obj props)) →
        Obj.get props "message" = .str s → s ≠ "" → st'.error = s) ∧
      (∀ ok props, resp = .response ok (.parsed (.obj props)) →
        truthy (Obj.get props "message") = false → st'.error = "Something went wrong") ∧
      (∀ e, (resp = .rejected e ∨ ∃ ok, resp = .response ok (.rejected e)) →
        st'.error = if e.message ≠ "" then e.message else "Submission failed") := by
  obtain ⟨err, herr⟩ := afterFetch_of_failed rt resp hfail
  have hsub := handleSubmit_of_valid rt apiUrl currentUser resp st xs hurls hne hrule
  rw [herr] at hsub
  refine ⟨_, _, hsub, rfl, rfl, rfl, rfl, ?_, ?_, ?_, ?_⟩
  · show (if err.message ≠ "" then err.message else "Submission failed") ≠ ""
    split_ifs with h
    · exact h
    · decide
  · intro ok props s hresp hmsg hs
    subst hresp
    have h := afterFetch_message rt ok props hfail
    rw [herr] at h
    have herr' : err = ⟨s⟩ := by
      have := Except.error.inj (Option.some.inj h)
      rw [this, hmsg]
      simp [truthy, hs, toStr]
    show (if err.message ≠ "" then err.message else "Submission failed") = s
    rw [herr']
    simp [hs]
  · intro ok props hresp hmsg
    subst hresp
    have h := afterFetch_message rt ok props hfail
    rw [herr] at h
    have herr' : err = ⟨"Something went wrong"⟩ := by
      have := Except.error.inj (Option.some.inj h)
      rw [this, hmsg]
      simp [toStr]
    show (if err.message ≠ "" then err.message else "Submission failed") = _
    rw [herr']
    decide
  · intro e he
    have herr' : err = e := by
      rcases he with he | ⟨ok, he⟩
      · subst he
        exact (Except.error.inj (Option.some.inj herr)).symm
      · subst he
        exact (Except.error.inj (Option.some.inj herr)).symm
    show (if err.message ≠ "" then err.message else "Submission failed") = _
    rw [herr']

theorem handleSubmit_request_failure_witness :
    imageUrls (stateWith ["a"] []).formData = some [.str "a"] ∧
    requestFailed (.response true (.parsed (.obj [("success", .bool false),
      ("message", .str "Unauthorized")]))) ∧
    ∃ st' fx, handleSubmit exactRuntime "/api/" exampleUser
        (.response true (.parsed (.obj [("success", .bool false),
          ("message", .str "Unauthorized")])))
        (stateWith ["a"] []) = some (st', fx) ∧
      st'.loading = false ∧ st'.formData = (stateWith ["a"] []).formData ∧
      navigations fx = [] ∧ st'.error = "Unauthorized" :=
  ⟨rfl, rfl,
   (handleSubmit_request_failure exactRuntime "/api/" exampleUser
      (.response true (.parsed (.obj [("success", .bool false),
        ("message", .str "Unauthorized")])))
      (stateWith ["a"] []) [.str "a"] rfl (by simp) rfl rfl).elim
     fun st' h => h.elim fun fx h =>
       ⟨st', fx, h.1, h.2.2.1, h.2.2.2.1, h.2.2.2.2.1,
        h.2.2.2.2.2.2.1 true _ "Unauthorized" rfl rfl (by decide)⟩⟩

/-! ## The bound on the number of images -/

theorem controlIds_ne_imageUrls (id : String) (h : id ∈ controlIds) : id ≠ "imageUrls" := by
  intro heq
  subst heq
  revert h
  decide

theorem handleChange_imageUrls (target : Target) (st : State) (h : target.id ∈ controlIds) :
    imageUrls (handleChange target st).formData = imageUrls st.formData := by
  unfold handleChange
  split_ifs
  · exact imageUrls_set_of_ne _ _ _ (by decide)
  · exact imageUrls_set_of_ne _ _ _ (controlIds_ne_imageUrls _ h)
  · exact imageUrls_set_of_ne _ _ _ (controlIds_ne_imageUrls _ h)

theorem handleSubmit_formData (rt : Runtime) (apiUrl : String) (currentUser : User)
    (resp : FetchOutcome) (st : State) (xs : List JSVal)
    (hurls : imageUrls st.formData = some xs) :
    ∃ st' fx, handleSubmit rt apiUrl currentUser resp st = some (st', fx) ∧
      st'.formData = st.formData := by
  simp only [handleSubmit, hurls]
  split_ifs
  · exact ⟨_, _, rfl, rfl⟩
  · exact ⟨_, _, rfl, rfl⟩
  · cases afterFetch rt resp with
    | none => exact ⟨_, _, rfl, rfl⟩
    | some r => cases r <;> exact ⟨_, _, rfl, rfl⟩

theorem handleImageSubmit_bound (uploads : List (Nat × UploadResult)) (st : State)
    (xs : List JSVal) (hurls : imageUrls st.formData = some xs) (hbound : xs.length ≤ 6) :
    ∃ st' fx ys, handleImageSubmit uploads st = some (st', fx) ∧
      imageUrls st'.formData = some ys ∧ ys.length ≤ 6 := by
  by_cases hfiles : st.files.length = 0
  · simp only [handleImageSubmit, if_pos hfiles]
    exact ⟨_, _, xs, rfl, hurls, hbound⟩
  · by_cases hover : xs.length + st.files.length > 6
    · simp only [handleImageSubmit, if_neg hfiles, hurls, if_pos hover]
      exact ⟨_, _, xs, rfl, hurls, hbound⟩
    · simp only [handleImageSubmit, if_neg hfiles, hurls, if_neg hover]
      cases hall : promiseAll st.files.length
          (uploads.map fun u => (u.1, storeImage u.2)) with
      | pending => exact ⟨_, _, xs, rfl, hurls, hbound⟩
      | rejected e => exact ⟨_, _, xs, rfl, hurls, hbound⟩
      | fulfilled urls =>
        have hlen := promiseAll_length _ _ _ hall
        simp only [appendUrls, hurls]
        refine ⟨_, _, xs ++ urls, rfl, imageUrls_set_self _ _, ?_⟩
        rw [List.length_append, hlen]
        omega

theorem handleRemoveImage_bound (index : Nat) (st : State) (xs : List JSVal)
    (hurls : imageUrls st.formData = some xs) (hbound : xs.length ≤ 6) :
    ∃ st' ys, handleRemoveImage index st = some st' ∧
      imageUrls st'.formData = some ys ∧ ys.length ≤ 6 := by
  simp only [handleRemoveImage, hurls, filterIndex_eq_eraseIdx]
  refine ⟨_, xs.eraseIdx index, rfl, imageUrls_set_self _ _, ?_⟩
  exact le_trans (List.length_eraseIdx_le xs index) hbound

theorem step_bound (rt : Runtime) (apiUrl : String) (currentUser : User) (st : State) (op : Op)
    (xs : List JSVal) (hurls : imageUrls st.formData = some xs) (hbound : xs.length ≤ 6)
    (hop : op.fromForm) :
    ∃ st' ys, step rt apiUrl currentUser st op = some st' ∧
      imageUrls st'.formData = some ys ∧ ys.length ≤ 6 := by
  cases op with
  | selectFiles files => exact ⟨_, xs, rfl, hurls, hbound⟩
  | imageSubmit uploads =>
    obtain ⟨st', fx, ys, h, hys, hle⟩ := handleImageSubmit_bound uploads st xs hurls hbound
    exact ⟨st', ys, by simp [step, h], hys, hle⟩
  | removeImage index =>
    obtain ⟨st', ys, h, hys, hle⟩ := handleRemoveImage_bound index st xs hurls hbound
    exact ⟨st', ys, by simp [step, h], hys, hle⟩
  | change target =>
    refine ⟨_, xs, rfl, ?_, hbound⟩
    rw [handleChange_imageUrls target st hop, hurls]
  | submit resp =>
    obtain ⟨st', fx, h, hform⟩ := handleSubmit_formData rt apiUrl currentUser resp st xs hurls
    exact ⟨st', xs, by simp [step, h], by rw [hform, hurls], hbound⟩

theorem run_bound (rt : Runtime) (apiUrl : String) (currentUser : User) (ops : List Op) :
    ∀ (st : State) (xs : List JSVal), imageUrls st.formData = some xs → xs.length ≤ 6 →
      (∀ op ∈ ops, op.fromForm) →
      ∃ st' ys, run rt apiUrl currentUser st ops = some st' ∧
        imageUrls st'.formData = some ys ∧ ys.length ≤ 6 := by
  induction ops with
  | nil => intro st xs hurls hbound _; exact ⟨st, xs, rfl, hurls, hbound⟩
  | cons op ops ih =>
    intro st xs hurls hbound hops
    obtain ⟨st1, ys, hstep, hys, hle⟩ :=
      step_bound rt apiUrl currentUser st op xs hurls hbound (hops op (List.mem_cons_self _ _))
    obtain ⟨st2, zs, hrun, hzs, hle2⟩ :=
      ih st1 ys hys hle (fun o ho => hops o (List.mem_cons_of_mem _ ho))
    exact ⟨st2, zs, by simp only [run, hstep, hrun], hzs, hle2⟩

/-- C4: `imageUrls.length <= 6` is an invariant of the editor.  From the initial draft
(`imageUrls = []`), every sequence of events run one after the other — selecting files,
`handleImageSubmit` whatever the uploads answer (batch rejected, failed, successful or
still pending), `handleRemoveImage` at any index, `handleChange` from any control of the
form, `handleSubmit` whatever the server answers — is defined and ends in a state whose
`imageUrls` is an array of at most 6 entries. -/
theorem imageUrls_length_le_six (rt : Runtime) (apiUrl : String) (currentUser : User)
    (ops : List Op) (hops : ∀ op ∈ ops, op.fromForm) :
    ∃ st xs, run rt apiUrl currentUser initialState ops = some st ∧
      imageUrls st.formData = some xs ∧ xs.length ≤ 6 :=
  run_bound rt apiUrl currentUser ops initialState [] rfl (by decide) hops

theorem imageUrls_length_le_six_witness :
    (∀ op ∈ exampleSession, op.fromForm) ∧
    ∃ st xs, run exactRuntime "/api/" exampleUser initialState exampleSession = some st ∧
      imageUrls st.formData = some xs ∧ xs.length ≤ 6 :=
  ⟨by
    intro op hop
    simp only [exampleSession, List.mem_cons, List.mem_singleton, List.not_mem_nil,
      or_false] at hop
    rcases hop with h | h | h | h | h | h | h | h <;> subst h <;>
      simp [Op.fromForm, controlIds],
   imageUrls_length_le_six exactRuntime "/api/" exampleUser exampleSession (by
    intro op hop
    simp only [exampleSession, List.mem_cons, List.mem_singleton, List.not_mem_nil,
      or_false] at hop
    rcases hop with h | h | h | h | h | h | h | h <;> subst h <;>
      simp [Op.fromForm, controlIds])⟩

end CreateListing
